import Mathlib

/-!
Verification of the FlareXGoogleHackathon deployment workload.

The repository packages a chat UI, the StreetCred credit-scoring UI and a
Python backend into one confidential-computing (TEE) image.  The sources in
scope are the Dockerfile (which carries the `tee.launch_policy` LABELs) and
the StreetCred UI components `plaid-link.tsx` and `metamask-connect.tsx`.
The launch-policy engine, the reverse proxy / router and the process
supervisor are specified in the design document but their code
(nginx.conf, Caddyfile, supervisord.conf, the TEE launcher) is not part of
the sources; those parts are modelled from the spec, as marked on each
definition.
-/

namespace FlareWorkload

/-! ## Launch Policy Engine (spec §4.4) -/

/-- Modelled from the spec: an environment value supplied at launch.  The
launch-policy engine's code (the TEE launcher consuming the
`tee.launch_policy.allow_env_override` LABEL) is not in the sources; the
spec admits scalar values and rejects non-scalar ones. -/
inductive EnvValue where
  | scalar (s : String)
  | compound (parts : List String)
  deriving DecidableEq, Repr

/-- Modelled from the spec: one audit entry `{key, applied, reason}` recorded
per override decision.  By construction it carries only the key name and the
accept/reject outcome, never a value. -/
structure AuditEntry where
  key : String
  applied : Bool
  reason : Option String
  deriving DecidableEq, Repr

/-- Modelled from the spec: the result of `resolve` — the effective mapping
and the audit log of override decisions. -/
structure EnvironmentResolution where
  effective : List (String × String)
  audit : List AuditEntry
  deriving DecidableEq, Repr

/-- Modelled from the spec: overriding one key in a scalar environment
mapping — replace the binding if the key is present, append it otherwise. -/
def applyOverride (env : List (String × String)) (k v : String) :
    List (String × String) :=
  if env.any (fun p => p.1 = k) then
    env.map (fun p => if p.1 = k then (k, v) else p)
  else
    env ++ [(k, v)]

/-- Modelled from the spec: the core of `resolve` on well-formed (scalar)
mappings.  Each operator-supplied key is applied when it is in the
allow-list (audit entry `applied=true`) and ignored otherwise (audit entry
`applied=false, reason="not in allow-list"`); base-only keys pass through
untouched with no audit entry. -/
def resolveCore (base : List (String × String)) :
    List (String × String) → List String → EnvironmentResolution
  | [], _ => ⟨base, []⟩
  | (k, v) :: rest, allowList =>
    if allowList.contains k then
      let r := resolveCore (applyOverride base k v) rest allowList
      ⟨r.effective, ⟨k, true, none⟩ :: r.audit⟩
    else
      let r := resolveCore base rest allowList
      ⟨r.effective, ⟨k, false, some "not in allow-list"⟩ :: r.audit⟩

/-- Modelled from the spec: a mapping value is scalar. -/
def EnvValue.isScalar : EnvValue → Bool
  | .scalar _ => true
  | .compound _ => false

/-- Modelled from the spec: a launch mapping is well formed when every value
is scalar and no key occurs twice with conflicting values. -/
def wellFormed (m : List (String × EnvValue)) : Bool :=
  m.all (fun p => p.2.isScalar) &&
    m.all (fun p => m.all (fun q => p.1 ≠ q.1 || p.2 = q.2))

/-- Modelled from the spec: extract the scalar string of a value (total;
only reached on well-formed mappings). -/
def EnvValue.str : EnvValue → String
  | .scalar s => s
  | .compound _ => ""

/-- Modelled from the spec: strip a well-formed mapping to scalar pairs. -/
def toScalarPairs (m : List (String × EnvValue)) : List (String × String) :=
  m.map (fun p => (p.1, p.2.str))

/-- Modelled from the spec: `resolve(base, operatorOverrides, allowList)`.
Fails closed with `InvalidEnvironmentError` on malformed input; otherwise
computes the effective environment and the audit log. -/
def resolve (base operatorOverrides : List (String × EnvValue))
    (allowList : List String) : Except String EnvironmentResolution :=
  if wellFormed base && wellFormed operatorOverrides then
    .ok (resolveCore (toScalarPairs base) (toScalarPairs operatorOverrides)
          allowList)
  else
    .error "InvalidEnvironmentError"

/-- The value of the Dockerfile LABEL `tee.launch_policy.allow_env_override`
(the deployed allow-list, comma-separated). -/
def allowEnvOverrideLabel : String :=
  "GEMINI_API_KEY,GEMINI_MODEL,WEB3_PROVIDER_URL,WEB3_EXPLORER_URL,SIMULATE_ATTESTATION,PLAID_CLIENT_ID,PLAID_SECRET,PLAID_ENV"

/-- Split a character list at commas, accumulating the current field in
reverse. -/
def splitCommaAux : List Char → List Char → List String
  | [], acc => [String.mk acc.reverse]
  | c :: rest, acc =>
    if c = ',' then String.mk acc.reverse :: splitCommaAux rest []
    else splitCommaAux rest (c :: acc)

/-- Parse a comma-separated LABEL value into its fields. -/
def commaSeparated (s : String) : List String :=
  splitCommaAux s.data []

/-- The deployed allow-list: the LABEL value split on commas. -/
def deployedAllowList : List String :=
  commaSeparated allowEnvOverrideLabel

/-- First-match lookup in an environment mapping. -/
def lookupEnv (k : String) : List (String × String) → Option String
  | [] => none
  | p :: rest => if p.1 = k then some p.2 else lookupEnv k rest

/-- Modelled from the spec: a launch mapping is malformed when it has a
non-scalar value or a key occurring twice with conflicting values. -/
def Malformed (m : List (String × EnvValue)) : Prop :=
  (∃ p ∈ m, p.2.isScalar = false) ∨
    (∃ p ∈ m, ∃ q ∈ m, p.1 = q.1 ∧ p.2 ≠ q.2)

instance (m : List (String × EnvValue)) : Decidable (Malformed m) := by
  unfold Malformed; infer_instance

/-! ## Reverse Proxy / Router (spec §4.3, §3)

The router's code (nginx.conf / Caddyfile) is not in the sources; the
matching algorithm is modelled from the spec.  The spec describes it two
ways: §3 and §8 say longest-matching-prefix with ties broken by priority;
§4.3 says descending priority, first match wins.  Both are embedded below
so they can be compared. -/

/-- Modelled from the spec: a routing rule `{path prefix or exact match,
target service, strip-prefix flag, priority}`. -/
structure RouteRule where
  pattern : String
  target : String
  strip : Bool
  priority : Nat
  deriving DecidableEq, Repr

/-- Modelled from the spec: outcome of routing — a matched rule, or a
`NotFound` response when no rule matches. -/
inductive RouteResult where
  | matched (r : RouteRule)
  | notFound
  deriving DecidableEq, Repr

/-- Character-list prefix test (structural, so it evaluates by kernel
reduction). -/
def isPrefixChars : List Char → List Char → Bool
  | [], _ => true
  | _ :: _, [] => false
  | a :: as, b :: bs => a = b && isPrefixChars as bs

/-- Modelled from the spec: a rule matches a request path when its pattern
is a prefix of the path (an exact pattern being the degenerate prefix). -/
def matchesPath (r : RouteRule) (path : String) : Bool :=
  isPrefixChars r.pattern.data path.data

/-- Modelled from the spec (§3, §8 reading): between two matching rules,
prefer the longer pattern, breaking length ties by higher priority; the
incumbent (earlier) rule wins exact ties. -/
def pickBetter (a b : RouteRule) : RouteRule :=
  if a.pattern.length < b.pattern.length then b
  else if a.pattern.length = b.pattern.length ∧ a.priority < b.priority then b
  else a

/-- Modelled from the spec (§3, §8 reading): `route` returns the matching
rule with the longest pattern, ties broken by declared priority; `NotFound`
when no rule matches. -/
def route (rules : List RouteRule) (path : String) : RouteResult :=
  match rules.filter (fun r => matchesPath r path) with
  | [] => .notFound
  | r :: rs => .matched (rs.foldl pickBetter r)

/-- Modelled from the spec (§4.3 reading): between two matching rules,
prefer the higher priority, the earlier rule winning ties. -/
def pickHigherPriority (a b : RouteRule) : RouteRule :=
  if a.priority < b.priority then b else a

/-- Modelled from the spec (§4.3 reading): evaluate rules in descending
priority, first matching rule wins; `NotFound` when no rule matches. -/
def routeByPriority (rules : List RouteRule) (path : String) : RouteResult :=
  match rules.filter (fun r => matchesPath r path) with
  | [] => .notFound
  | r :: rs => .matched (rs.foldl pickHigherPriority r)

/-- Rule `a` dominates rule `b` in the longest-prefix order: strictly
longer pattern, or equal length and at least the priority. -/
def dominates (a b : RouteRule) : Prop :=
  b.pattern.length < a.pattern.length ∨
    (b.pattern.length = a.pattern.length ∧ b.priority ≤ a.priority)

/-! ## Process Supervisor (spec §4.1)

The supervisor's code (supervisord.conf and the supervising processes) is
not in the sources; the per-instance state machine is modelled from the
spec. -/

/-- Modelled from the spec: the per-ServiceInstance states
`Pending → Starting → Running → {Exited, Crashed} → Restarting → … `,
with terminal `Stopped` and `Failed`. -/
inductive ServiceState where
  | pending
  | starting
  | running
  | exited (code : Nat)
  | crashed (signal : Nat)
  | restarting
  | stopped
  | failed
  deriving DecidableEq, Repr

/-- Modelled from the spec: restart policies `never | on-failure |
always`. -/
inductive RestartPolicy where
  | never
  | onFailure
  | always
  deriving DecidableEq, Repr

/-- Modelled from the spec: the dynamic part of a ServiceInstance — current
state and restart count. -/
structure ServiceInstance where
  state : ServiceState
  restartCount : Nat
  deriving DecidableEq, Repr

/-- Modelled from the spec: the transition out of `Crashed` under a restart
policy — `on-failure` re-enters `Restarting` while the retry count is below
the cap and moves to terminal `Failed` once it is exhausted; `always`
restarts regardless; `never` goes terminal. -/
def afterCrash (policy : RestartPolicy) (cap : Nat) (i : ServiceInstance) :
    ServiceInstance :=
  match policy with
  | .never => ⟨.stopped, i.restartCount⟩
  | .always => ⟨.restarting, i.restartCount + 1⟩
  | .onFailure =>
    if i.restartCount < cap then ⟨.restarting, i.restartCount + 1⟩
    else ⟨.failed, i.restartCount⟩

/-- Modelled from the spec: one step of an `on-failure` instance whose
process crashes on every attempt — the environment assumed by the claim.
Terminal states are absorbing. -/
def stepCrashLoop (cap : Nat) (i : ServiceInstance) : ServiceInstance :=
  match i.state with
  | .pending => ⟨.starting, i.restartCount⟩
  | .starting => ⟨.running, i.restartCount⟩
  | .running => ⟨.crashed 9, i.restartCount⟩
  | .crashed _ => afterCrash .onFailure cap i
  | .restarting => ⟨.starting, i.restartCount⟩
  | .exited _ => i
  | .stopped => i
  | .failed => i

/-- A fresh instance before its first start. -/
def initialInstance : ServiceInstance := ⟨.pending, 0⟩

/-! ## StreetCred UI components (src/streetcredui/components) -/

/-- The Plaid UI state fields written by the `SET_STATE` dispatch in
`plaid-link.tsx`. -/
structure PlaidLinkState where
  itemId : Option String
  accessToken : Option String
  isItemAccess : Bool
  linkSuccess : Bool
  deriving DecidableEq, Repr

/-- Outcome of the `fetch` to `/plaid/exchange_public_token` inside
`onSuccess`: a parsed ok-response, a non-ok HTTP response, or a thrown
error caught by the surrounding try/catch. -/
inductive ExchangeOutcome where
  | ok (item_id access_token : String)
  | httpError
  | threw (msg : String)
  deriving DecidableEq, Repr

/-- Embedding of `onSuccess` in `plaid-link.tsx` (lines 16–54): given the
exchange outcome and the current UI state, returns the final state, the
list of `SET_STATE` payloads dispatched, and the console-error lines. -/
def onSuccess (outcome : ExchangeOutcome) (s : PlaidLinkState) :
    PlaidLinkState × List PlaidLinkState × List String :=
  match outcome with
  | .ok i a =>
    let s' : PlaidLinkState := ⟨some i, some a, true, true⟩
    (s', [s'], [])
  | .httpError => (s, [], ["Error exchanging public token"])
  | .threw m => (s, [], ["Error in Plaid flow: " ++ m])

/-- Outcome of `await connect({ connector: metaMask() })` in
`metamask-connect.tsx`, treated as an opaque fallible call. -/
inductive ConnectOutcome where
  | success
  | threw (msg : String)
  deriving DecidableEq, Repr

/-- Embedding of `handleConnect` in `metamask-connect.tsx` (lines 33–40):
returns whether `onConnect` was invoked and the console-error lines. -/
def handleConnect (o : ConnectOutcome) : Bool × List String :=
  match o with
  | .success => (true, [])
  | .threw m => (false, ["Failed to connect: " ++ m])

/-- An HTTP request as issued by the UI components: URL (absolute or
gateway-relative), method and optional body. -/
structure HttpRequest where
  url : String
  method : String
  body : Option String
  deriving DecidableEq, Repr

/-- The public-token exchange request issued by `onSuccess` in
`plaid-link.tsx`: a POST to the absolute URL
`http://localhost:8000/plaid/exchange_public_token` with the opaque public
token as a JSON body. -/
def exchangePublicTokenRequest (public_token : String) : HttpRequest :=
  ⟨"http://localhost:8000/plaid/exchange_public_token", "POST",
   some ("\x7b\"public_token\":\"" ++ public_token ++ "\"\x7d")⟩

/-- The link-token creation request issued by `generateToken` in
`plaid-link.tsx`: a POST to a gateway-relative `/api/plaid` path. -/
def createLinkTokenRequest (isPaymentInitiation : Bool) : HttpRequest :=
  ⟨if isPaymentInitiation then "/api/plaid/create_link_token_for_payment"
    else "/api/plaid/create_link_token", "POST", none⟩

/-- Modelled from the spec: a request passes through the gateway's routed
paths exactly when it is addressed by path — a URL starting with "/" that
the RouteRule table matches by prefix; an absolute URL to another origin
bypasses the gateway entirely. -/
def isGatewayRouted (r : HttpRequest) : Bool :=
  isPrefixChars "/".data r.url.data

/-- Modelled from the spec: the gateway forwards a routed request to the
backend, removing the matched prefix when the rule's strip flag is set and
leaving the request untouched otherwise. -/
def forward (rule : RouteRule) (r : HttpRequest) : HttpRequest :=
  if rule.strip then ⟨r.url.drop rule.pattern.length, r.method, r.body⟩
  else r

theorem lookupEnv_mapSet_self (env : List (String × String)) (k v : String)
    (h : env.any (fun p => p.1 = k) = true) :
    lookupEnv k (env.map (fun p => if p.1 = k then (k, v) else p)) = some v := by
  induction env with
  | nil => simp at h
  | cons p rest ih =>
    by_cases hp : p.1 = k
    · simp [lookupEnv, hp]
    · simp only [List.any_cons, Bool.or_eq_true, decide_eq_true_eq] at h
      rcases h with h | h

      · exact absurd h hp
      · simp [lookupEnv, hp, ih h]

theorem lookupEnv_append_single_self (env : List (String × String))
    (k v : String) (h : env.any (fun p => p.1 = k) = false) :
    lookupEnv k (env ++ [(k, v)]) = some v := by
  induction env with
  | nil => simp [lookupEnv]
  | cons p rest ih =>
    simp only [List.any_cons, Bool.or_eq_false_iff] at h
    have hp : ¬(p.1 = k) := by simpa using h.1
    simp [lookupEnv, hp, ih h.2]

theorem lookupEnv_mapSet_ne (env : List (String × String)) (k k' v : String)
    (hne : k ≠ k') :
    lookupEnv k (env.map (fun p => if p.1 = k' then (k', v) else p)) =
      lookupEnv k env := by
  induction env with
  | nil => rfl
  | cons p rest ih =>
    by_cases hp : p.1 = k'
    · have hke : ¬(k' = k) := fun hk => hne hk.symm
      have hpk : ¬(p.1 = k) := hp ▸ hke
      simp only [List.map_cons, if_pos hp, lookupEnv, if_neg hke, if_neg hpk]
      exact ih
    · simp only [List.map_cons, if_neg hp, lookupEnv, ih]

theorem lookupEnv_append_single_ne (env : List (String × String))
    (k k' v : String) (hne : k ≠ k') :
    lookupEnv k (env ++ [(k', v)]) = lookupEnv k env := by
  induction env with
  | nil =>
    simp only [List.nil_append, lookupEnv]
    rw [if_neg (fun hk => hne (Eq.symm hk))]
  | cons p rest ih =>
    by_cases hp : p.1 = k
    · simp [lookupEnv, hp]
    · simp [lookupEnv, hp, ih]

theorem lookupEnv_applyOverride_self (env : List (String × String))
    (k v : String) : lookupEnv k (applyOverride env k v) = some v := by
  unfold applyOverride
  by_cases h : env.any (fun p => p.1 = k) = true
  · simp only [h, if_true]
    exact lookupEnv_mapSet_self env k v h
  · rw [Bool.not_eq_true] at h
    simp only [h, Bool.false_eq_true, if_false]
    exact lookupEnv_append_single_self env k v h

theorem lookupEnv_applyOverride_ne (env : List (String × String))
    (k k' v : String) (hne : k ≠ k') :
    lookupEnv k (applyOverride env k' v) = lookupEnv k env := by
  unfold applyOverride
  by_cases h : env.any (fun p => p.1 = k') = true
  · simp only [h, if_true]
    exact lookupEnv_mapSet_ne env k k' v hne
  · rw [Bool.not_eq_true] at h
    simp only [h, Bool.false_eq_true, if_false]
    exact lookupEnv_append_single_ne env k k' v hne

theorem lookupEnv_resolveCore_untouched
    (ops : List (String × String)) (base : List (String × String))
    (allow : List String) (k : String) (h : ∀ p ∈ ops, p.1 ≠ k) :
    lookupEnv k (resolveCore base ops allow).effective = lookupEnv k base := by
  induction ops generalizing base with
  | nil => rfl
  | cons p rest ih =>
    obtain ⟨k', v'⟩ := p
    have hk' : k' ≠ k := h (k', v') (List.mem_cons_self _ _)
    have hrest : ∀ q ∈ rest, q.1 ≠ k := fun q hq => h q (List.mem_cons_of_mem _ hq)
    by_cases ha : allow.contains k' = true
    · simp only [resolveCore, ha, if_true]
      rw [ih (applyOverride base k' v') hrest]
      exact lookupEnv_applyOverride_ne base k k' v' (fun hk => hk' hk.symm)
    · simp only [resolveCore, ha, if_false]
      exact ih base hrest

theorem resolveCore_disallowed_preserved
    (ops : List (String × String)) (base : List (String × String))
    (allow : List String) (k : String) (h : allow.contains k = false) :
    lookupEnv k (resolveCore base ops allow).effective = lookupEnv k base := by
  induction ops generalizing base with
  | nil => rfl
  | cons p rest ih =>
    obtain ⟨k', v'⟩ := p
    by_cases ha : allow.contains k' = true
    · have hk' : k ≠ k' := by
        intro hk; rw [hk] at h; rw [h] at ha; exact Bool.false_ne_true ha
      simp only [resolveCore, ha, if_true]
      rw [ih (applyOverride base k' v')]
      exact lookupEnv_applyOverride_ne base k k' v' hk'
    · simp only [resolveCore, ha, if_false]
      exact ih base

theorem resolveCore_allowed_applied
    (ops : List (String × String)) (base : List (String × String))
    (allow : List String) (k v : String)
    (hnd : (ops.map Prod.fst).Nodup) (hmem : (k, v) ∈ ops)
    (ha : allow.contains k = true) :
    lookupEnv k (resolveCore base ops allow).effective = some v := by
  induction ops generalizing base with
  | nil => exact absurd hmem (List.not_mem_nil _)
  | cons p rest ih =>
    obtain ⟨k', v'⟩ := p
    simp only [List.map_cons, List.nodup_cons] at hnd
    rcases List.mem_cons.mp hmem with hhead | htail
    · simp only [Prod.mk.injEq] at hhead
      obtain ⟨hk, hv⟩ := hhead
      subst hk; subst hv
      simp only [resolveCore, ha, if_true]
      have hnotin : ∀ q ∈ rest, q.1 ≠ k := by
        intro q hq hqk
        exact hnd.1 (hqk ▸ List.mem_map_of_mem Prod.fst hq)
      rw [lookupEnv_resolveCore_untouched rest (applyOverride base k v) allow k hnotin]
      exact lookupEnv_applyOverride_self base k v
    · have hk' : k' ≠ k := by
        intro hk
        exact hnd.1 (hk ▸ List.mem_map_of_mem Prod.fst htail)
      by_cases hac : allow.contains k' = true
      · simp only [resolveCore, hac, if_true]
        exact ih (applyOverride base k' v') hnd.2 htail
      · simp only [resolveCore, hac, if_false]
        exact ih base hnd.2 htail

/-- The audit log is a pure function of the override KEYS and the
allow-list: values never enter it. -/
theorem resolveCore_audit_eq_map
    (ops : List (String × String)) (base : List (String × String))
    (allow : List String) :
    (resolveCore base ops allow).audit =
      (ops.map Prod.fst).map (fun k =>
        if allow.contains k then
          (⟨k, true, none⟩ : AuditEntry)
        else
          (⟨k, false, some "not in allow-list"⟩ : AuditEntry)) := by
  induction ops generalizing base with
  | nil => rfl
  | cons p rest ih =>
    obtain ⟨k', v'⟩ := p
    by_cases ha : allow.contains k' = true
    · have hm : k' ∈ allow := by simpa using ha
      simp [resolveCore, ha, hm, ih]
    · have hm : ¬(k' ∈ allow) := by simpa using ha
      simp [resolveCore, ha, hm, ih]

theorem malformed_not_wellFormed (m : List (String × EnvValue))
    (h : Malformed m) : wellFormed m = false := by
  rw [Bool.eq_false_iff]
  intro hwf
  simp only [wellFormed, Bool.and_eq_true, List.all_eq_true] at hwf
  rcases h with ⟨p, hp, hps⟩ | ⟨p, hp, q, hq, hkeq, hvne⟩
  · rw [hwf.1 p hp] at hps
    exact absurd hps (by simp)
  · have := hwf.2 p hp
    have hb := this q hq
    simp only [Bool.or_eq_true, decide_eq_true_eq] at hb
    rcases hb with hne | heq
    · exact hne hkeq
    · exact hvne heq

/-- C1: for every base mapping, operator-override mapping and allow-list,
`resolve` applies an operator override only when its key is in the
allow-list (recording an audit entry with `applied=true`); for every key
not in the allow-list, the effective environment keeps the base value (or
the key's absence) and an audit entry with `applied=false` and reason
"not in allow-list" is recorded. -/
theorem resolveCore_allowlist_gate (base ops : List (String × String))
    (allow : List String) (k v : String)
    (hnd : (ops.map Prod.fst).Nodup) (hmem : (k, v) ∈ ops) :
    (allow.contains k = true →
        lookupEnv k (resolveCore base ops allow).effective = some v ∧
        (⟨k, true, none⟩ : AuditEntry) ∈ (resolveCore base ops allow).audit) ∧
    (allow.contains k = false →
        lookupEnv k (resolveCore base ops allow).effective = lookupEnv k base ∧
        (⟨k, false, some "not in allow-list"⟩ : AuditEntry) ∈
          (resolveCore base ops allow).audit) := by
  have hkmem : k ∈ ops.map Prod.fst := List.mem_map_of_mem Prod.fst hmem
  constructor
  · intro ha
    refine ⟨resolveCore_allowed_applied ops base allow k v hnd hmem ha, ?_⟩
    rw [resolveCore_audit_eq_map]
    have ham : k ∈ allow := by simpa using ha
    have hfm := List.mem_map_of_mem
      (fun k => if allow.contains k then (⟨k, true, none⟩ : AuditEntry)
                else ⟨k, false, some "not in allow-list"⟩) hkmem
    simpa [ham] using hfm
  · intro ha
    refine ⟨resolveCore_disallowed_preserved ops base allow k ha, ?_⟩
    rw [resolveCore_audit_eq_map]
    have ham : ¬(k ∈ allow) := by simpa using ha
    have hfm := List.mem_map_of_mem
      (fun k => if allow.contains k then (⟨k, true, none⟩ : AuditEntry)
                else ⟨k, false, some "not in allow-list"⟩) hkmem
    simpa [ham] using hfm

/-- Witness for C1 at a concrete input: the allowed key is applied, the
disallowed key keeps the (absent) base value. -/
theorem resolveCore_allowlist_gate_witness :
    lookupEnv "GEMINI_API_KEY"
        (resolveCore [] [("GEMINI_API_KEY", "x"), ("AWS_SECRET", "y")]
          ["GEMINI_API_KEY"]).effective = some "x" ∧
    lookupEnv "AWS_SECRET"
        (resolveCore [] [("GEMINI_API_KEY", "x"), ("AWS_SECRET", "y")]
          ["GEMINI_API_KEY"]).effective = lookupEnv "AWS_SECRET" [] :=
  ⟨((resolveCore_allowlist_gate [] [("GEMINI_API_KEY", "x"), ("AWS_SECRET", "y")]
      ["GEMINI_API_KEY"] "GEMINI_API_KEY" "x" (by decide) (by decide)).1
      (by decide)).1,
   ((resolveCore_allowlist_gate [] [("GEMINI_API_KEY", "x"), ("AWS_SECRET", "y")]
      ["GEMINI_API_KEY"] "AWS_SECRET" "y" (by decide) (by decide)).2
      (by decide)).1⟩

/-- C2: with allow-list {GEMINI_API_KEY, PLAID_CLIENT_ID} and operator
overrides {GEMINI_API_KEY: "x", AWS_SECRET: "y"}, `resolve` maps
GEMINI_API_KEY to "x", does not contain AWS_SECRET, and the audit log has
exactly the two expected entries; and the deployed allow-list (Dockerfile
LABEL `tee.launch_policy.allow_env_override`) is the fixed 8-element set. -/
theorem resolve_example_and_deployed_allowlist :
    resolve []
        [("GEMINI_API_KEY", EnvValue.scalar "x"),
         ("AWS_SECRET", EnvValue.scalar "y")]
        ["GEMINI_API_KEY", "PLAID_CLIENT_ID"] =
      Except.ok ⟨[("GEMINI_API_KEY", "x")],
        [⟨"GEMINI_API_KEY", true, none⟩,
         ⟨"AWS_SECRET", false, some "not in allow-list"⟩]⟩ ∧
    lookupEnv "GEMINI_API_KEY" [("GEMINI_API_KEY", "x")] = some "x" ∧
    lookupEnv "AWS_SECRET" [("GEMINI_API_KEY", "x")] = none ∧
    deployedAllowList =
      ["GEMINI_API_KEY", "GEMINI_MODEL", "WEB3_PROVIDER_URL",
       "WEB3_EXPLORER_URL", "SIMULATE_ATTESTATION", "PLAID_CLIENT_ID",
       "PLAID_SECRET", "PLAID_ENV"] :=
  ⟨rfl, rfl, rfl, by decide⟩

/-- C3: `resolve` is deterministic — identical `(base, overrides,
allowList)` inputs always yield an identical `EnvironmentResolution`; the
result depends on nothing but the three inputs. -/
theorem resolve_deterministic (b₁ b₂ o₁ o₂ : List (String × EnvValue))
    (a₁ a₂ : List String) (hb : b₁ = b₂) (ho : o₁ = o₂) (ha : a₁ = a₂) :
    resolve b₁ o₁ a₁ = resolve b₂ o₂ a₂ := by
  rw [hb, ho, ha]

/-- Witness for C3 at a concrete input. -/
theorem resolve_deterministic_witness :
    resolve [("A", EnvValue.scalar "1")] [("B", EnvValue.scalar "2")] ["B"] =
      resolve [("A", EnvValue.scalar "1")] [("B", EnvValue.scalar "2")] ["B"] :=
  resolve_deterministic _ _ _ _ _ _ rfl rfl rfl

/-- C6: `resolve` fails closed — on malformed input (a non-scalar value, or
duplicate keys with conflicting values) the whole resolution fails with
`InvalidEnvironmentError` and no effective environment is produced. -/
theorem resolve_fails_closed (base ops : List (String × EnvValue))
    (allow : List String) (h : Malformed base ∨ Malformed ops) :
    resolve base ops allow = Except.error "InvalidEnvironmentError" := by
  unfold resolve
  rcases h with h | h
  · rw [malformed_not_wellFormed base h]
    simp
  · rw [malformed_not_wellFormed ops h]
    simp

/-- Witness for C6 at a concrete input: a non-scalar override value and a
conflicting duplicate both abort the resolution. -/
theorem resolve_fails_closed_witness :
    resolve [] [("GEMINI_API_KEY", EnvValue.compound ["a", "b"])] [] =
      Except.error "InvalidEnvironmentError" ∧
    resolve [("K", EnvValue.scalar "1"), ("K", EnvValue.scalar "2")] [] [] =
      Except.error "InvalidEnvironmentError" :=
  ⟨resolve_fails_closed _ _ _ (Or.inr (by decide)),
   resolve_fails_closed _ _ _ (Or.inl (by decide))⟩

/-- C7: no secret value is ever written to the audit log — the audit log is
identical for any two runs whose override mappings share the same keys,
however the supplied values and the base environment differ; an entry
carries only the key name and the accept/reject outcome. -/
theorem audit_never_contains_values (b₁ b₂ o₁ o₂ : List (String × String))
    (allow : List String) (h : o₁.map Prod.fst = o₂.map Prod.fst) :
    (resolveCore b₁ o₁ allow).audit = (resolveCore b₂ o₂ allow).audit := by
  rw [resolveCore_audit_eq_map, resolveCore_audit_eq_map, h]

/-- Witness for C7 at a concrete input: changing the secret values (and the
base environment) leaves the audit log unchanged. -/
theorem audit_never_contains_values_witness :
    (resolveCore [("B", "u")] [("K", "secret-one")] ["K"]).audit =
      (resolveCore [] [("K", "secret-two")] ["K"]).audit :=
  audit_never_contains_values [("B", "u")] [] [("K", "secret-one")]
    [("K", "secret-two")] ["K"] (by decide)

theorem dominates_refl (a : RouteRule) : dominates a a :=
  Or.inr ⟨rfl, le_refl _⟩

theorem dominates_trans {a b c : RouteRule}
    (h₁ : dominates a b) (h₂ : dominates b c) : dominates a c := by
  rcases h₁ with h₁ | ⟨e₁, p₁⟩ <;> rcases h₂ with h₂ | ⟨e₂, p₂⟩
  · exact Or.inl (lt_trans h₂ h₁)
  · exact Or.inl (lt_of_le_of_lt (le_of_eq e₂) h₁)
  · exact Or.inl (lt_of_lt_of_le h₂ (le_of_eq e₁))
  · exact Or.inr ⟨e₂.trans e₁, le_trans p₂ p₁⟩

theorem dominates_le {a b : RouteRule} (h : dominates a b) :
    b.pattern.length ≤ a.pattern.length ∧
      (b.pattern.length = a.pattern.length → b.priority ≤ a.priority) := by
  rcases h with h | ⟨he, hp⟩
  · exact ⟨Nat.le_of_lt h, fun he => by omega⟩
  · exact ⟨le_of_eq he, fun _ => hp⟩

theorem pickBetter_eq_or (a b : RouteRule) :
    pickBetter a b = a ∨ pickBetter a b = b := by
  unfold pickBetter
  by_cases h₁ : a.pattern.length < b.pattern.length
  · simp [h₁]
  · by_cases h₂ : a.pattern.length = b.pattern.length ∧ a.priority < b.priority
    · simp [h₁, h₂]
    · simp [h₁, h₂]

theorem pickBetter_dominates_left (a b : RouteRule) :
    dominates (pickBetter a b) a := by
  unfold pickBetter
  by_cases h₁ : a.pattern.length < b.pattern.length
  · rw [if_pos h₁]
    exact Or.inl h₁
  · rw [if_neg h₁]
    by_cases h₂ : a.pattern.length = b.pattern.length ∧ a.priority < b.priority
    · rw [if_pos h₂]
      exact Or.inr ⟨h₂.1, Nat.le_of_lt h₂.2⟩
    · rw [if_neg h₂]
      exact dominates_refl a

theorem pickBetter_dominates_right (a b : RouteRule) :
    dominates (pickBetter a b) b := by
  unfold pickBetter
  by_cases h₁ : a.pattern.length < b.pattern.length
  · rw [if_pos h₁]
    exact dominates_refl b
  · rw [if_neg h₁]
    by_cases h₂ : a.pattern.length = b.pattern.length ∧ a.priority < b.priority
    · rw [if_pos h₂]
      exact dominates_refl b
    · rw [if_neg h₂]
      have hba : b.pattern.length ≤ a.pattern.length := Nat.not_lt.mp h₁
      rcases Nat.lt_or_ge b.pattern.length a.pattern.length with hlt | hge
      · exact Or.inl hlt
      · have heq : b.pattern.length = a.pattern.length := le_antisymm hba hge
        refine Or.inr ⟨heq, ?_⟩
        by_contra hp
        exact h₂ ⟨heq.symm, Nat.lt_of_not_le hp⟩

theorem foldl_pickBetter_mem (rs : List RouteRule) (r : RouteRule) :
    rs.foldl pickBetter r ∈ r :: rs := by
  induction rs generalizing r with
  | nil => simp
  | cons s rs ih =>
    simp only [List.foldl_cons]
    rcases pickBetter_eq_or r s with hp | hp <;> rw [hp]
    · rcases List.mem_cons.mp (ih r) with he | hm
      · rw [he]
        exact List.mem_cons_self _ _
      · exact List.mem_cons_of_mem _ (List.mem_cons_of_mem _ hm)
    · rcases List.mem_cons.mp (ih s) with he | hm
      · rw [he]
        exact List.mem_cons_of_mem _ (List.mem_cons_self _ _)
      · exact List.mem_cons_of_mem _ (List.mem_cons_of_mem _ hm)

theorem foldl_pickBetter_dominates (rs : List RouteRule) (r : RouteRule) :
    dominates (rs.foldl pickBetter r) r ∧
      ∀ s ∈ rs, dominates (rs.foldl pickBetter r) s := by
  induction rs generalizing r with
  | nil => exact ⟨dominates_refl r, by simp⟩
  | cons s rs ih =>
    obtain ⟨h1, h2⟩ := ih (pickBetter r s)
    simp only [List.foldl_cons]
    refine ⟨dominates_trans h1 (pickBetter_dominates_left r s), ?_⟩
    intro t ht
    rcases List.mem_cons.mp ht with rfl | hm
    · exact dominates_trans h1 (pickBetter_dominates_right r t)
    · exact h2 t hm

/-- C4 (amended): `route` returns a rule with the longest matching prefix
among all matching rules, ties broken by higher declared priority, and
returns `NotFound` exactly when no rule matches.  (The descending-priority,
first-match evaluation of §4.3 is not equivalent in general; see the
counterexample.) -/
theorem route_longest_match (rules : List RouteRule) (path : String) :
    (route rules path = RouteResult.notFound ↔
       ∀ r ∈ rules, matchesPath r path = false) ∧
    (∀ r, route rules path = RouteResult.matched r →
       r ∈ rules ∧ matchesPath r path = true ∧
       ∀ s ∈ rules, matchesPath s path = true →
         s.pattern.length ≤ r.pattern.length ∧
           (s.pattern.length = r.pattern.length → s.priority ≤ r.priority)) := by
  constructor
  · have hiff : route rules path = RouteResult.notFound ↔
        rules.filter (fun x => matchesPath x path) = [] := by
      unfold route
      cases hf : rules.filter (fun x => matchesPath x path) with
      | nil => simp
      | cons a rs => simp
    rw [hiff, List.filter_eq_nil_iff]
    simp [Bool.not_eq_true]
  · intro r hr
    unfold route at hr
    cases hf : rules.filter (fun x => matchesPath x path) with
    | nil => rw [hf] at hr; cases hr
    | cons a rs =>
      rw [hf] at hr
      injection hr with hr
      subst hr
      have hmem : rs.foldl pickBetter a ∈ a :: rs := foldl_pickBetter_mem rs a
      have hmemf : rs.foldl pickBetter a ∈
          rules.filter (fun x => matchesPath x path) := hf ▸ hmem
      refine ⟨(List.mem_filter.mp hmemf).1,
        by simpa using (List.mem_filter.mp hmemf).2, ?_⟩
      intro s hs hms
      have hsf : s ∈ rules.filter (fun x => matchesPath x path) :=
        List.mem_filter.mpr ⟨hs, by simp [hms]⟩
      rw [hf] at hsf
      obtain ⟨hda, hdall⟩ := foldl_pickBetter_dominates rs a
      rcases List.mem_cons.mp hsf with rfl | hsm
      · exact dominates_le hda
      · exact dominates_le (hdall s hsm)

/-- Witness for C4 at a concrete input: the single catch-all rule is
returned and dominates every matching rule. -/
theorem route_longest_match_witness :
    (⟨"/", "static-ui", false, 1⟩ : RouteRule) ∈
        [(⟨"/", "static-ui", false, 1⟩ : RouteRule)] ∧
      matchesPath ⟨"/", "static-ui", false, 1⟩ "/dashboard" = true ∧
      ∀ s ∈ [(⟨"/", "static-ui", false, 1⟩ : RouteRule)],
        matchesPath s "/dashboard" = true →
          s.pattern.length ≤ (1 : Nat) ∧
            (s.pattern.length = (1 : Nat) → s.priority ≤ 1) :=
  (route_longest_match [⟨"/", "static-ui", false, 1⟩] "/dashboard").2
    ⟨"/", "static-ui", false, 1⟩ (by decide)

/-- Counterexample for C4 as stated: with rules `/a` (priority 2) and `/ab`
(priority 1) and request path `/abc`, the longest-prefix reading picks the
`/ab` rule while the §4.3 descending-priority first-match reading picks the
`/a` rule — the two characterisations the claim equates disagree. -/
theorem route_priority_first_differs :
    route [⟨"/a", "svc-a", false, 2⟩, ⟨"/ab", "svc-b", false, 1⟩] "/abc" =
        RouteResult.matched ⟨"/ab", "svc-b", false, 1⟩ ∧
      routeByPriority [⟨"/a", "svc-a", false, 2⟩, ⟨"/ab", "svc-b", false, 1⟩]
          "/abc" = RouteResult.matched ⟨"/a", "svc-a", false, 2⟩ ∧
      route [⟨"/a", "svc-a", false, 2⟩, ⟨"/ab", "svc-b", false, 1⟩] "/abc" ≠
        routeByPriority [⟨"/a", "svc-a", false, 2⟩, ⟨"/ab", "svc-b", false, 1⟩]
          "/abc" := by
  refine ⟨by decide, by decide, by decide⟩

theorem stepCrashLoop_cycle (cap s j : Nat) (hj : j < cap) :
    (stepCrashLoop cap)^[4] ⟨ServiceState.crashed s, j⟩ =
      ⟨ServiceState.crashed 9, j + 1⟩ := by
  have h1 : stepCrashLoop cap ⟨ServiceState.crashed s, j⟩ =
      ⟨ServiceState.restarting, j + 1⟩ := by
    show (if j < cap then (⟨ServiceState.restarting, j + 1⟩ : ServiceInstance)
        else ⟨ServiceState.failed, j⟩) = ⟨ServiceState.restarting, j + 1⟩
    rw [if_pos hj]
  calc (stepCrashLoop cap)^[4] ⟨ServiceState.crashed s, j⟩
      = (stepCrashLoop cap)^[3]
          (stepCrashLoop cap ⟨ServiceState.crashed s, j⟩) :=
        Function.iterate_succ_apply _ 3 _
    _ = (stepCrashLoop cap)^[3] ⟨ServiceState.restarting, j + 1⟩ := by rw [h1]
    _ = ⟨ServiceState.crashed 9, j + 1⟩ := rfl

theorem stepCrashLoop_crash_j (cap : Nat) :
    ∀ j, j ≤ cap →
      (stepCrashLoop cap)^[3 + 4 * j] initialInstance =
        ⟨ServiceState.crashed 9, j⟩ := by
  intro j
  induction j with
  | zero => intro _; rfl
  | succ j ih =>
    intro hj
    have hlt : j < cap := Nat.lt_of_succ_le hj
    have harith : 3 + 4 * (j + 1) = 4 + (3 + 4 * j) := by ring
    rw [harith, Function.iterate_add_apply, ih (Nat.le_of_lt hlt),
      stepCrashLoop_cycle cap 9 j hlt]

theorem stepCrashLoop_failed_absorbing (cap c : Nat) :
    ∀ n, (stepCrashLoop cap)^[n] ⟨ServiceState.failed, c⟩ =
      ⟨ServiceState.failed, c⟩ := by
  intro n
  induction n with
  | zero => rfl
  | succ n ih =>
    rw [Function.iterate_succ_apply]
    exact ih

theorem stepCrashLoop_count_le (cap : Nat) (i : ServiceInstance)
    (h : i.restartCount ≤ cap) :
    (stepCrashLoop cap i).restartCount ≤ cap := by
  obtain ⟨st, c⟩ := i
  cases st with
  | pending => exact h
  | starting => exact h
  | running => exact h
  | exited code => exact h
  | restarting => exact h
  | stopped => exact h
  | failed => exact h
  | crashed s =>
    show (if c < cap then (⟨ServiceState.restarting, c + 1⟩ : ServiceInstance)
        else ⟨ServiceState.failed, c⟩).restartCount ≤ cap
    by_cases hc : c < cap
    · rw [if_pos hc]
      exact hc
    · rw [if_neg hc]
      exact h

theorem stepCrashLoop_iterate_count_le (cap : Nat) :
    ∀ n, ((stepCrashLoop cap)^[n] initialInstance).restartCount ≤ cap := by
  intro n
  induction n with
  | zero => exact Nat.zero_le cap
  | succ n ih =>
    rw [Function.iterate_succ_apply']
    exact stepCrashLoop_count_le cap _ ih

/-- C8: a ServiceInstance with restart policy `on-failure` that crashes on
every attempt reaches terminal `Failed` after the configured retry cap (at
step `4 + 4·cap` of the crash loop, having restarted `cap` times), stays
`Failed` forever after, and its restart count never exceeds the cap — so it
never re-enters `Restarting` beyond the cap. -/
theorem onFailure_crash_cap (cap : Nat) :
    (stepCrashLoop cap)^[4 + 4 * cap] initialInstance =
      ⟨ServiceState.failed, cap⟩ ∧
    (∀ n, 4 + 4 * cap ≤ n →
      ((stepCrashLoop cap)^[n] initialInstance).state = ServiceState.failed) ∧
    (∀ n, ((stepCrashLoop cap)^[n] initialInstance).restartCount ≤ cap) := by
  have hmain : (stepCrashLoop cap)^[4 + 4 * cap] initialInstance =
      ⟨ServiceState.failed, cap⟩ := by
    have harith : 4 + 4 * cap = 1 + (3 + 4 * cap) := by ring
    rw [harith, Function.iterate_add_apply,
      stepCrashLoop_crash_j cap cap (le_refl cap)]
    show (if cap < cap then (⟨ServiceState.restarting, cap + 1⟩ : ServiceInstance)
        else ⟨ServiceState.failed, cap⟩) = ⟨ServiceState.failed, cap⟩
    rw [if_neg (Nat.lt_irrefl cap)]
  refine ⟨hmain, ?_, stepCrashLoop_iterate_count_le cap⟩
  intro n hn
  have hsplit : n = (n - (4 + 4 * cap)) + (4 + 4 * cap) := by omega
  rw [hsplit, Function.iterate_add_apply, hmain,
    stepCrashLoop_failed_absorbing cap cap _]

/-- Witness for C8 at a concrete cap: with cap 1, the crash loop reaches
`Failed` with restart count 1 after 8 steps. -/
theorem onFailure_crash_cap_witness :
    (stepCrashLoop 1)^[8] initialInstance = ⟨ServiceState.failed, 1⟩ :=
  (onFailure_crash_cap 1).1

/-- C9: in the Plaid link `onSuccess` handler, if the public-token exchange
fails (non-ok HTTP response, or a thrown error), no `SET_STATE` dispatch is
made and the Plaid UI state is left unchanged; only a console error is
emitted. -/
theorem onSuccess_error_no_dispatch (outcome : ExchangeOutcome)
    (s : PlaidLinkState) (h : ∀ i a, outcome ≠ ExchangeOutcome.ok i a) :
    (onSuccess outcome s).1 = s ∧ (onSuccess outcome s).2.1 = [] := by
  cases outcome with
  | ok i a => exact absurd rfl (h i a)
  | httpError => exact ⟨rfl, rfl⟩
  | threw m => exact ⟨rfl, rfl⟩

/-- Witness for C9 at a concrete input: a non-ok exchange response leaves
the initial state untouched and dispatches nothing. -/
theorem onSuccess_error_no_dispatch_witness :
    (onSuccess ExchangeOutcome.httpError ⟨none, none, false, false⟩).1 =
        ⟨none, none, false, false⟩ ∧
      (onSuccess ExchangeOutcome.httpError ⟨none, none, false, false⟩).2.1 =
        [] :=
  onSuccess_error_no_dispatch ExchangeOutcome.httpError
    ⟨none, none, false, false⟩
    (fun _ _ h => ExchangeOutcome.noConfusion h)

/-- C10: in MetaMaskConnect, `onConnect` is invoked exactly when `connect`
with the MetaMask connector completed without throwing; if `connect`
throws, the error is logged and `onConnect` is never called. -/
theorem handleConnect_onConnect_iff_success (o : ConnectOutcome) :
    ((handleConnect o).1 = true ↔ o = ConnectOutcome.success) ∧
    (∀ m, o = ConnectOutcome.threw m →
      (handleConnect o).1 = false ∧
        (handleConnect o).2 = ["Failed to connect: " ++ m]) := by
  cases o with
  | success =>
    refine ⟨⟨fun _ => rfl, fun _ => rfl⟩, ?_⟩
    intro m h
    cases h
  | threw m =>
    refine ⟨⟨fun h => ?_, fun h => ?_⟩, ?_⟩
    · cases h
    · cases h
    · intro m' h
      injection h with h
      subst h
      exact ⟨rfl, rfl⟩

/-- Witness for C10 at a concrete input: a thrown `connect` logs the error
and never calls `onConnect`. -/
theorem handleConnect_onConnect_iff_success_witness :
    (handleConnect (ConnectOutcome.threw "user rejected")).1 = false ∧
      (handleConnect (ConnectOutcome.threw "user rejected")).2 =
        ["Failed to connect: " ++ "user rejected"] :=
  (handleConnect_onConnect_iff_success (ConnectOutcome.threw "user rejected")).2
    "user rejected" rfl

/-- C5 (amended): the link-token creation requests are issued on
gateway-routed paths (`/api/plaid/...`) and the modelled gateway forwards a
routed request unmodified when the matched rule does not strip its prefix;
the public-token exchange request, however, is issued directly to the
backend origin `http://localhost:8000` and does not pass through the
gateway's routed paths. -/
theorem plaid_gateway_forwarding (t : String) (b : Bool) (rule : RouteRule)
    (hs : rule.strip = false) :
    isGatewayRouted (createLinkTokenRequest b) = true ∧
    forward rule (createLinkTokenRequest b) = createLinkTokenRequest b ∧
    forward rule (exchangePublicTokenRequest t) = exchangePublicTokenRequest t ∧
    isGatewayRouted (exchangePublicTokenRequest t) = false := by
  have hfwd : ∀ r : HttpRequest, forward rule r = r := by
    intro r
    unfold forward
    rw [hs]
    rfl
  refine ⟨?_, hfwd _, hfwd _, rfl⟩
  cases b <;> rfl

/-- Witness for C5's amended claim at a concrete input. -/
theorem plaid_gateway_forwarding_witness :
    isGatewayRouted (createLinkTokenRequest false) = true ∧
    forward ⟨"/api", "backend", false, 2⟩ (createLinkTokenRequest false) =
      createLinkTokenRequest false ∧
    forward ⟨"/api", "backend", false, 2⟩ (exchangePublicTokenRequest "tok") =
      exchangePublicTokenRequest "tok" ∧
    isGatewayRouted (exchangePublicTokenRequest "tok") = false :=
  plaid_gateway_forwarding "tok" false ⟨"/api", "backend", false, 2⟩ rfl

/-- Counterexample for C5 as stated: the client's public-token exchange
request is issued to the absolute backend origin
`http://localhost:8000/plaid/exchange_public_token`, so it does not pass
through the gateway's routed paths. -/
theorem exchange_request_bypasses_gateway :
    isGatewayRouted (exchangePublicTokenRequest "public-sandbox-token") =
        false ∧
      (exchangePublicTokenRequest "public-sandbox-token").url =
        "http://localhost:8000/plaid/exchange_public_token" :=
  ⟨rfl, rfl⟩

end FlareWorkload
